import Mathlib

/-!
Verification of the Backpack exchange connector
(`src/ref/backpack_old/backpack.rs`, `src/ref/backpack_old/backpack_trading.rs`)
against its natural-language specification.

The Rust source is shallowly embedded: pure protocol logic becomes Lean
functions; `BTreeMap` becomes a sorted association list; machine integers
become `Nat` with explicit `% 2 ^ w` where a Rust cast truncates; `f64`
protocol arithmetic is modelled exactly over `ℚ`; fallible code returns
`Except`.
-/

namespace Backpack

/-- Modelled from the spec: the error taxonomy of `crate::types::ExchangeError`
(declared outside the provided sources; its five constructors are exactly the
ones the provided sources construct and the spec's §7 taxonomy lists). -/
inductive ExchangeError where
  | Authentication (msg : String)
  | RestApi (msg : String)
  | Trading (msg : String)
  | WebSocket (msg : String)
  | InvalidData (msg : String)
deriving DecidableEq, Repr

/-- Modelled from the spec: `crate::types::OrderSide` (side ∈ {Buy, Sell}). -/
inductive OrderSide where
  | Buy
  | Sell
deriving DecidableEq, Repr

/-- Modelled from the spec: `crate::types::OrderType`
(type ∈ {Market, Limit, PostOnly, FillOrKill, ImmediateOrCancel}). -/
inductive OrderType where
  | Market
  | Limit
  | PostOnly
  | FillOrKill
  | ImmediateOrCancel
deriving DecidableEq, Repr

/-- Modelled from the spec: `crate::types::OrderStatus`
(status ∈ {Live, PartiallyFilled, Filled, Canceled}). -/
inductive OrderStatus where
  | Live
  | PartiallyFilled
  | Filled
  | Canceled
deriving DecidableEq, Repr

/-- Value of a decimal digit character. -/
def digitVal (c : Char) : Option Nat :=
  if c.isDigit then some (c.toNat - Char.toNat '0') else none

/-- Parse a nonempty all-digit character list as a natural number. -/
def parseNatDigits (l : List Char) : Option Nat :=
  if l.isEmpty then none
  else l.foldlM (fun acc c => (digitVal c).map (fun d => acc * 10 + d)) 0

/-- Parse an unsigned decimal literal (`123` or `123.456`) as a rational. -/
def parseUnsignedRat (l : List Char) : Option ℚ :=
  let intPart := l.takeWhile (fun c => c ≠ '.')
  match l.dropWhile (fun c => c ≠ '.') with
  | [] => (parseNatDigits intPart).map (fun n => (n : ℚ))
  | _ :: frac => do
    let i ← parseNatDigits intPart
    let f ← parseNatDigits frac
    pure ((i : ℚ) + (f : ℚ) / (10 : ℚ) ^ frac.length)

/-- Models Rust `str::parse::<f64>()` on plain decimal literals, exactly
(rationals standing in for binary floats); other shapes parse to `none`. -/
def parseRat (s : String) : Option ℚ :=
  match s.data with
  | '-' :: rest => (parseUnsignedRat rest).map (fun q => -q)
  | l => parseUnsignedRat l

/-- Worker for `rustReplace`: scans left to right; a positive counter means
that many characters of an already-matched occurrence remain to be skipped. -/
def rustReplaceAux (pat rep : List Char) : Nat → List Char → List Char
  | _, [] => []
  | Nat.succ k, _ :: rest => rustReplaceAux pat rep k rest
  | 0, c :: rest =>
    if pat ≠ [] ∧ pat.isPrefixOf (c :: rest) then
      rep ++ rustReplaceAux pat rep (pat.length - 1) rest
    else
      c :: rustReplaceAux pat rep 0 rest

/-- Rust `str::replace(pat, rep)` over character lists: replace every
occurrence of `pat`, scanning left to right, non-overlapping. (The sources
never call `replace` with an empty pattern; here an empty pattern replaces
nothing.) -/
def rustReplace (pat rep s : List Char) : List Char :=
  rustReplaceAux pat rep 0 s

/-- Rust `str::strip_suffix`: remove `sfx` from the end when it is a suffix. -/
def rustStripSuffix (s sfx : List Char) : Option (List Char) :=
  if sfx.isSuffixOf s then some (s.take (s.length - sfx.length)) else none

/-- `backpack_trading.rs` `convert_symbol_to_backpack`, over character lists:
replace `/` with `_`; if the result ends with `_USDT`, replace `_USDT` with
`_USDC`; append `_PERP`. -/
def convertToBackpackL (symbol : List Char) : List Char :=
  let base_symbol := rustReplace ['/'] ['_'] symbol
  if ("_USDT".data).isSuffixOf base_symbol then
    rustReplace "_USDT".data "_USDC".data base_symbol ++ "_PERP".data
  else
    base_symbol ++ "_PERP".data

/-- `backpack_trading.rs` `convert_symbol_from_backpack`, over character
lists: strip the `_PERP` suffix (keeping the input when absent), replace `_`
with `/`, and replace `/USDC` with `/USDT` when the result ends with it. -/
def convertFromBackpackL (symbol : List Char) : List Char :=
  let base_symbol :=
    rustReplace ['_'] ['/'] ((rustStripSuffix symbol "_PERP".data).getD symbol)
  if ("/USDC".data).isSuffixOf base_symbol then
    rustReplace "/USDC".data "/USDT".data base_symbol
  else
    base_symbol

/-- `convert_symbol_to_backpack` on Lean strings. -/
def convert_symbol_to_backpack (symbol : String) : String :=
  String.mk (convertToBackpackL symbol.data)

/-- `convert_symbol_from_backpack` on Lean strings. -/
def convert_symbol_from_backpack (symbol : String) : String :=
  String.mk (convertFromBackpackL symbol.data)

/-- Replacement skips over characters that cannot start the pattern. -/
theorem rustReplace_append_left (p : Char) (pat' rep base t : List Char)
    (hp : p ∉ base) :
    rustReplace (p :: pat') rep (base ++ t) =
      base ++ rustReplace (p :: pat') rep t := by
  induction base with
  | nil => rfl
  | cons c bs ih =>
    have hc : ¬ p = c := fun h => hp (h ▸ List.mem_cons_self c bs)
    have hbs : p ∉ bs := fun hm => hp (List.mem_cons_of_mem c hm)
    simp only [rustReplace, List.cons_append, rustReplaceAux, List.isPrefixOf]
    rw [if_neg]
    · exact congrArg (c :: ·) (ih hbs)
    · rintro ⟨-, hpre⟩
      simp only [Bool.and_eq_true, beq_iff_eq] at hpre
      exact hc hpre.1

/-- Stripping an actual suffix returns the remaining front. -/
theorem rustStripSuffix_append (x t : List Char) :
    rustStripSuffix (x ++ t) t = some x := by
  have hs : t.isSuffixOf (x ++ t) = true := by simp [List.isSuffixOf]
  simp only [rustStripSuffix, hs, if_pos, List.length_append]
  rw [Nat.add_sub_cancel, List.take_left]

/-- C3: converting a canonical USDT-quoted symbol (a base asset containing
neither `/` nor `_`, followed by `/USDT`) to the exchange's notation and back
is the identity. -/
theorem convert_symbol_round_trip (base : List Char)
    (h1 : '/' ∉ base) (h2 : '_' ∉ base) :
    convert_symbol_from_backpack
      (convert_symbol_to_backpack (String.mk (base ++ "/USDT".data))) =
      String.mk (base ++ "/USDT".data) := by
  have e1 : rustReplace ['/'] ['_'] (base ++ "/USDT".data) =
      base ++ "_USDT".data := by
    rw [rustReplace_append_left '/' [] ['_'] base ("/USDT".data) h1]
    rfl
  have e2 : rustReplace "_USDT".data "_USDC".data (base ++ "_USDT".data) =
      base ++ "_USDC".data := by
    rw [show "_USDT".data = '_' :: "USDT".data from rfl,
      rustReplace_append_left '_' ("USDT".data) ("_USDC".data) base _ h2]
    rfl
  have hsfx1 : ("_USDT".data).isSuffixOf (base ++ "_USDT".data) = true := by
    simp [List.isSuffixOf]
  have hto : convertToBackpackL (base ++ "/USDT".data) =
      (base ++ "_USDC".data) ++ "_PERP".data := by
    simp only [convertToBackpackL, e1, hsfx1, if_true, e2]
  have e3 : rustReplace ['_'] ['/'] (base ++ "_USDC".data) =
      base ++ "/USDC".data := by
    rw [rustReplace_append_left '_' [] ['/'] base ("_USDC".data) h2]
    rfl
  have e4 : rustReplace "/USDC".data "/USDT".data (base ++ "/USDC".data) =
      base ++ "/USDT".data := by
    rw [show "/USDC".data = '/' :: "USDC".data from rfl,
      rustReplace_append_left '/' ("USDC".data) ("/USDT".data) base _ h1]
    rfl
  have hsfx2 : ("/USDC".data).isSuffixOf (base ++ "/USDC".data) = true := by
    simp [List.isSuffixOf]
  have hfrom : convertFromBackpackL ((base ++ "_USDC".data) ++ "_PERP".data) =
      base ++ "/USDT".data := by
    simp only [convertFromBackpackL, rustStripSuffix_append, Option.getD_some,
      e3, hsfx2, if_true, e4]
  show String.mk (convertFromBackpackL (convertToBackpackL
      (base ++ "/USDT".data))) = String.mk (base ++ "/USDT".data)
  rw [hto, hfrom]

/-- C3 witness: the round trip at `BTC/USDT`
(`BTC/USDT → BTC_USDC_PERP → BTC/USDT`). -/
theorem convert_symbol_round_trip_witness :
    ('/' ∉ "BTC".data ∧ '_' ∉ "BTC".data) ∧
      convert_symbol_from_backpack
        (convert_symbol_to_backpack (String.mk ("BTC".data ++ "/USDT".data))) =
        String.mk ("BTC".data ++ "/USDT".data) :=
  ⟨⟨by decide, by decide⟩,
    convert_symbol_round_trip "BTC".data (by decide) (by decide)⟩

/-- Rust `Vec::join(sep)` over strings. -/
def rustJoin (sep : String) : List String → String
  | [] => ""
  | [x] => x
  | x :: y :: xs => x ++ sep ++ rustJoin sep (y :: xs)

/-- One `BTreeMap::insert` on a key-sorted association list: replaces the
value at an existing key, otherwise inserts at the key's ordered place. -/
def bmInsert (k v : String) : List (String × String) → List (String × String)
  | [] => [(k, v)]
  | (k', v') :: rest =>
    if k < k' then (k, v) :: (k', v') :: rest
    else if k = k' then (k, v) :: rest
    else (k', v') :: bmInsert k v rest

/-- The `BTreeMap<String, String>` obtained by performing a sequence of
inserts, in order, on the empty map (the `params` map of
`generate_signature`). -/
def bmOfList (inserts : List (String × String)) : List (String × String) :=
  inserts.foldl (fun m kv => bmInsert kv.1 kv.2 m) []

/-- `generate_signature`'s message assembly: `instruction=<I>`, then each
`key=value` of the parameter map in map order, then `timestamp=<T>`, then
`window=<W>`, joined by `&`. `inserts` is the sequence of insertions the code
performs on the map (query parameters, then body parameters). -/
def signingMessage (instruction : String) (inserts : List (String × String))
    (timestamp window : Nat) : String :=
  let message_parts :=
    ("instruction=" ++ instruction) ::
      ((bmOfList inserts).map (fun kv => kv.1 ++ "=" ++ kv.2) ++
        ["timestamp=" ++ toString timestamp, "window=" ++ toString window])
  rustJoin "&" message_parts

/-- Key order on map entries. -/
def entLt (a b : String × String) : Prop := a.1 < b.1

/-- Joining a nonempty list equals the head followed by the separator-prefixed
tail elements. -/
theorem rustJoin_cons (sep : String) (a : String) (xs : List String) :
    rustJoin sep (a :: xs) =
      a ++ (xs.map (fun y => sep ++ y)).foldr (· ++ ·) "" := by
  induction xs generalizing a with
  | nil => simp [rustJoin]
  | cons y ys ih =>
    show a ++ sep ++ rustJoin sep (y :: ys) = _
    rw [ih y]
    simp [String.append_assoc]

/-- Everything in `bmInsert k v m` is the new pair or was already in `m`. -/
theorem mem_bmInsert {x : String × String} {k v : String}
    {m : List (String × String)} (h : x ∈ bmInsert k v m) :
    x = (k, v) ∨ x ∈ m := by
  induction m with
  | nil => simpa [bmInsert] using h
  | cons kv rest ih =>
    obtain ⟨k', v'⟩ := kv
    by_cases h1 : k < k'
    · simp only [bmInsert, if_pos h1] at h
      exact List.mem_cons.mp h
    · by_cases h2 : k = k'
      · simp only [bmInsert, if_neg h1, if_pos h2] at h
        rcases List.mem_cons.mp h with h | h
        · exact Or.inl h
        · exact Or.inr (List.mem_cons_of_mem _ h)
      · simp only [bmInsert, if_neg h1, if_neg h2] at h
        rcases List.mem_cons.mp h with h | h
        · exact Or.inr (h ▸ List.mem_cons_self _ _)
        · rcases ih h with h' | h'
          · exact Or.inl h'
          · exact Or.inr (List.mem_cons_of_mem _ h')

/-- `bmInsert` preserves key-sortedness. -/
theorem bmInsert_sorted {k v : String} {m : List (String × String)}
    (h : List.Sorted entLt m) : List.Sorted entLt (bmInsert k v m) := by
  induction m with
  | nil => simp [bmInsert, List.Sorted]
  | cons kv rest ih =>
    obtain ⟨k', v'⟩ := kv
    rw [List.sorted_cons] at h
    obtain ⟨hall, hrest⟩ := h
    by_cases h1 : k < k'
    · simp only [bmInsert, if_pos h1]
      rw [List.sorted_cons]
      refine ⟨?_, List.sorted_cons.mpr ⟨hall, hrest⟩⟩
      intro b hb
      rcases List.mem_cons.mp hb with hb | hb
      · exact hb ▸ h1
      · exact lt_trans h1 (hall b hb)
    · by_cases h2 : k = k'
      · simp only [bmInsert, if_neg h1, if_pos h2]
        rw [List.sorted_cons]
        exact ⟨fun b hb => h2 ▸ hall b hb, hrest⟩
      · simp only [bmInsert, if_neg h1, if_neg h2]
        rw [List.sorted_cons]
        refine ⟨?_, ih hrest⟩
        intro b hb
        rcases mem_bmInsert hb with hb' | hb'
        · have : k' < k := by
            rcases lt_trichotomy k k' with h | h | h
            · exact absurd h h1
            · exact absurd h h2
            · exact h
          exact hb' ▸ this
        · exact hall b hb'

/-- Inserting a fresh key is, up to permutation, consing the pair. -/
theorem bmInsert_perm {k v : String} {m : List (String × String)}
    (h : k ∉ m.map Prod.fst) : (bmInsert k v m).Perm ((k, v) :: m) := by
  induction m with
  | nil => simp [bmInsert]
  | cons kv rest ih =>
    obtain ⟨k', v'⟩ := kv
    simp only [List.map_cons, List.mem_cons] at h
    push_neg at h
    obtain ⟨hne, hrest⟩ := h
    by_cases h1 : k < k'
    · simp only [bmInsert, if_pos h1]
      exact List.Perm.refl _
    · simp only [bmInsert, if_neg h1, if_neg hne]
      exact ((ih hrest).cons (k', v')).trans (List.Perm.swap (k, v) (k', v') rest)

/-- Folding inserts over a sorted map keeps it sorted. -/
theorem bmFold_sorted (l : List (String × String)) :
    ∀ m, List.Sorted entLt m →
      List.Sorted entLt (l.foldl (fun acc kv => bmInsert kv.1 kv.2 acc) m) := by
  induction l with
  | nil => exact fun m hm => hm
  | cons kv rest ih => exact fun m hm => ih _ (bmInsert_sorted hm)

/-- The parameter map is key-sorted. -/
theorem bmOfList_sorted (l : List (String × String)) :
    List.Sorted entLt (bmOfList l) :=
  bmFold_sorted l [] List.sorted_nil

/-- Folding inserts of pairs with fresh keys is, up to permutation, append. -/
theorem bmFold_perm (l : List (String × String)) :
    ∀ m : List (String × String),
      (l.map Prod.fst ++ m.map Prod.fst).Nodup →
      (l.foldl (fun acc kv => bmInsert kv.1 kv.2 acc) m).Perm (l ++ m) := by
  induction l with
  | nil => intro m _; simp
  | cons kv rest ih =>
    intro m hnd
    obtain ⟨k, v⟩ := kv
    rw [List.map_cons, List.cons_append, List.nodup_cons] at hnd
    obtain ⟨hk, hnd'⟩ := hnd
    have hkm : k ∉ m.map Prod.fst := fun hm =>
      hk (List.mem_append.mpr (Or.inr hm))
    have hkeys : ((bmInsert k v m).map Prod.fst).Perm (k :: m.map Prod.fst) :=
      (bmInsert_perm hkm).map Prod.fst
    have hnd2 : (rest.map Prod.fst ++ (bmInsert k v m).map Prod.fst).Nodup := by
      have hp : (rest.map Prod.fst ++ (bmInsert k v m).map Prod.fst).Perm
          (k :: (rest.map Prod.fst ++ m.map Prod.fst)) :=
        ((hkeys.append_left (rest.map Prod.fst)).trans List.perm_middle)
      exact hp.nodup_iff.mpr (List.nodup_cons.mpr ⟨hk, hnd'⟩)
    have hstep := ih (bmInsert k v m) hnd2
    have hmove : (rest ++ bmInsert k v m).Perm ((k, v) :: (rest ++ m)) :=
      (((bmInsert_perm hkm).append_left rest).trans List.perm_middle)
    exact (hstep.trans hmove)

/-- A parameter map built from insertions with pairwise-distinct keys holds,
up to order, exactly the inserted pairs. -/
theorem bmOfList_perm (l : List (String × String))
    (hnd : (l.map Prod.fst).Nodup) : (bmOfList l).Perm l := by
  have h := bmFold_perm l [] (by simpa using hnd)
  simpa using h

/-- Insertion order does not matter when keys are pairwise distinct. -/
theorem bmOfList_eq_of_perm {l1 l2 : List (String × String)}
    (hperm : l1.Perm l2) (hnd : (l1.map Prod.fst).Nodup) :
    bmOfList l1 = bmOfList l2 := by
  have hnd2 : (l2.map Prod.fst).Nodup := ((hperm.map Prod.fst).nodup_iff).mp hnd
  have hp : (bmOfList l1).Perm (bmOfList l2) :=
    (bmOfList_perm l1 hnd).trans (hperm.trans (bmOfList_perm l2 hnd2).symm)
  haveI : IsAntisymm (String × String) entLt :=
    ⟨fun a b h1 h2 => absurd (h2 : b.1 < a.1) (lt_asymm (h1 : a.1 < b.1))⟩
  exact List.eq_of_perm_of_sorted hp (bmOfList_sorted l1) (bmOfList_sorted l2)

/-- Right-associated concatenation pulls the accumulator out. -/
theorem foldr_append_str (xs : List String) (init : String) :
    xs.foldr (· ++ ·) init = xs.foldr (· ++ ·) "" ++ init := by
  induction xs with
  | nil => simp
  | cons x xs ih => simp [List.foldr_cons, ih, String.append_assoc]

/-- Joining a head, middle block and two fixed trailing parts with `&`. -/
theorem rustJoin_shape (head : String) (mid : List String) (a b : String) :
    rustJoin "&" (head :: (mid ++ [a, b])) =
      head ++ (mid.map (fun y => "&" ++ y)).foldr (· ++ ·) "" ++
        "&" ++ a ++ "&" ++ b := by
  rw [rustJoin_cons, List.map_append, List.foldr_append, foldr_append_str]
  simp [String.append_assoc]

/-- C1: the signed canonical string is exactly `instruction=<I>`, followed by
each `key=value` pair sorted lexicographically by key — independent of
insertion order — joined by `&`, followed by `timestamp=<T>` and then
`window=<W>` appended last and unsorted, in that fixed order. -/
theorem signing_message_canonical (I : String) (l l2 : List (String × String))
    (T W : Nat) (hperm : l.Perm l2) (hnd : (l.map Prod.fst).Nodup) :
    signingMessage I l T W =
      "instruction=" ++ I ++
        ((bmOfList l).map (fun kv => "&" ++ kv.1 ++ "=" ++ kv.2)).foldr
          (· ++ ·) "" ++
        "&timestamp=" ++ toString T ++ "&window=" ++ toString W ∧
    ((bmOfList l).map Prod.fst).Sorted (· < ·) ∧
    signingMessage I l T W = signingMessage I l2 T W := by
  refine ⟨?_, ?_, ?_⟩
  · simp only [signingMessage]
    rw [rustJoin_shape]
    simp only [List.map_map, Function.comp_def, String.append_assoc]
    rfl
  · exact List.Pairwise.map Prod.fst (fun a b h => h) (bmOfList_sorted l)
  · simp only [signingMessage]
    rw [bmOfList_eq_of_perm hperm hnd]

/-- C1 witness: the spec's example `{b:2, a:1}` — the two insertion orders
produce the same canonical string, with `a=1` before `b=2`. -/
theorem signing_message_canonical_witness :
    signingMessage "orderExecute" [("b", "2"), ("a", "1")] 123 5000 =
      signingMessage "orderExecute" [("a", "1"), ("b", "2")] 123 5000 :=
  (signing_message_canonical "orderExecute" [("b", "2"), ("a", "1")]
    [("a", "1"), ("b", "2")] 123 5000 (by decide) (by decide)).2.2

/-- Does `pat` occur as a contiguous substring? (Rust `str::contains`.) -/
def listContainsSub (pat : List Char) : List Char → Bool
  | [] => pat.isEmpty
  | c :: rest => pat.isPrefixOf (c :: rest) || listContainsSub pat rest

/-- Rust `str::contains` on Lean strings. -/
def rustContains (s pat : String) : Bool :=
  listContainsSub pat.data s.data

/-- `generate_signature`, instruction derivation: a fixed lookup from the
endpoint path and HTTP method, failing on an unrecognized combination with
the connector's configuration error (`ExchangeError::Authentication`,
`"Unsupported endpoint: <path>"`). -/
def instructionFor (method path : String) : Except ExchangeError String :=
  if rustContains path "/capital" then
    if rustContains path "/collateral" then Except.ok "collateralQuery"
    else Except.ok "balanceQuery"
  else if rustContains path "/orders" && method == "POST" then
    Except.ok "orderExecute"
  else if rustContains path "/orders" && method == "GET" then
    Except.ok "orderQuery"
  else if rustContains path "/orders" && method == "DELETE" then
    Except.ok "orderCancel"
  else if rustContains path "/position" then
    Except.ok "positionQuery"
  else
    Except.error (ExchangeError.Authentication ("Unsupported endpoint: " ++ path))

/-- A JSON value in the image of `serde_json::Value`; numbers are carried as
the decimal text `Number::to_string` renders. -/
inductive Json where
  | null
  | bool (b : Bool)
  | num (s : String)
  | str (s : String)
  | arr (items : List Json)
  | obj (fields : List (String × Json))

/-- The `match value` of `generate_signature`'s body handling: scalar JSON
values render to text; `Null` and structured values yield nothing
(`continue`). -/
def scalarString : Json → Option String
  | Json.str s => some s
  | Json.num n => some n
  | Json.bool b => some (if b then "true" else "false")
  | Json.null => none
  | Json.arr _ => none
  | Json.obj _ => none

/-- `generate_signature`'s body handling: the sequence of `params.insert`
calls made for a POST body. For an array, each object element's scalar fields
are inserted, the key suffixed with `[index]` exactly when the array has more
than one element; for a single object, scalar fields are inserted under their
plain keys. -/
def bodyParams : Json → List (String × String)
  | Json.arr items =>
    items.enum.flatMap (fun p =>
      match p.2 with
      | Json.obj fields =>
        fields.filterMap (fun kv =>
          (scalarString kv.2).map (fun v =>
            (if items.length > 1 then kv.1 ++ "[" ++ toString p.1 ++ "]"
             else kv.1, v)))
      | _ => [])
  | Json.obj fields =>
    fields.filterMap (fun kv => (scalarString kv.2).map (fun v => (kv.1, v)))
  | _ => []

/-- C8: the signing instruction tag is a fixed lookup on (method, path) —
capital/collateral → collateralQuery, capital → balanceQuery,
orders+POST → orderExecute, orders+GET → orderQuery,
orders+DELETE → orderCancel, position → positionQuery — and any (method,
path) matching none of these fails with the configuration error. -/
theorem instruction_lookup (method path : String) :
    (rustContains path "/capital" = true →
      rustContains path "/collateral" = true →
      instructionFor method path = Except.ok "collateralQuery") ∧
    (rustContains path "/capital" = true →
      rustContains path "/collateral" = false →
      instructionFor method path = Except.ok "balanceQuery") ∧
    (rustContains path "/capital" = false →
      rustContains path "/orders" = true → method = "POST" →
      instructionFor method path = Except.ok "orderExecute") ∧
    (rustContains path "/capital" = false →
      rustContains path "/orders" = true → method = "GET" →
      instructionFor method path = Except.ok "orderQuery") ∧
    (rustContains path "/capital" = false →
      rustContains path "/orders" = true → method = "DELETE" →
      instructionFor method path = Except.ok "orderCancel") ∧
    (rustContains path "/capital" = false →
      (rustContains path "/orders" = false ∨
        (method ≠ "POST" ∧ method ≠ "GET" ∧ method ≠ "DELETE")) →
      rustContains path "/position" = true →
      instructionFor method path = Except.ok "positionQuery") ∧
    (rustContains path "/capital" = false →
      (rustContains path "/orders" = false ∨
        (method ≠ "POST" ∧ method ≠ "GET" ∧ method ≠ "DELETE")) →
      rustContains path "/position" = false →
      instructionFor method path =
        Except.error
          (ExchangeError.Authentication ("Unsupported endpoint: " ++ path))) := by
  refine ⟨?_, ?_, ?_, ?_, ?_, ?_, ?_⟩
  · intro h1 h2; simp [instructionFor, h1, h2]
  · intro h1 h2; simp [instructionFor, h1, h2]
  · intro h1 h2 h3; simp [instructionFor, h1, h2, h3]
  · intro h1 h2 h3; simp [instructionFor, h1, h2, h3]
  · intro h1 h2 h3; simp [instructionFor, h1, h2, h3]
  · intro h1 h2 h3
    rcases h2 with h2 | ⟨hm1, hm2, hm3⟩
    · simp [instructionFor, h1, h2, h3]
    · simp [instructionFor, h1, h3, hm1, hm2, hm3]
  · intro h1 h2 h3
    rcases h2 with h2 | ⟨hm1, hm2, hm3⟩
    · simp [instructionFor, h1, h2, h3]
    · simp [instructionFor, h1, h3, hm1, hm2, hm3]

/-- C8 witness: `PUT /api/v1/foo` matches no case and fails with the
configuration error; `GET /api/v1/position` yields `positionQuery`. -/
theorem instruction_lookup_witness :
    instructionFor "PUT" "/api/v1/foo" =
      Except.error
        (ExchangeError.Authentication ("Unsupported endpoint: " ++
          "/api/v1/foo")) ∧
    instructionFor "GET" "/api/v1/position" = Except.ok "positionQuery" :=
  ⟨(instruction_lookup "PUT" "/api/v1/foo").2.2.2.2.2.2 (by decide)
      (Or.inl (by decide)) (by decide),
    (instruction_lookup "GET" "/api/v1/position").2.2.2.2.2.1 (by decide)
      (Or.inl (by decide)) (by decide)⟩

/-- C2: when the signed POST body is a JSON array — exactly one element signs
each scalar field of that element under its plain key with no index suffix;
more than one element signs each element's scalar field keys suffixed
`[index]`; null and non-scalar (object/array) field values are skipped in
both cases. -/
theorem body_params_array (f : List (String × Json)) (items : List Json)
    (h : 1 < items.length) :
    bodyParams (Json.arr [Json.obj f]) =
      f.filterMap (fun kv => (scalarString kv.2).map (fun v => (kv.1, v))) ∧
    bodyParams (Json.arr items) =
      items.enum.flatMap (fun p =>
        match p.2 with
        | Json.obj fields =>
          fields.filterMap (fun kv =>
            (scalarString kv.2).map (fun v =>
              (kv.1 ++ "[" ++ toString p.1 ++ "]", v)))
        | _ => []) ∧
    (scalarString Json.null = none ∧
      (∀ xs, scalarString (Json.arr xs) = none) ∧
      (∀ fs, scalarString (Json.obj fs) = none)) := by
  refine ⟨?_, ?_, rfl, fun _ => rfl, fun _ => rfl⟩
  · simp [bodyParams]
  · simp [bodyParams, h]

/-- C2 witness: a one-element order array signs `key` unsuffixed; a
two-element array signs `key[0]`, `key[1]`; a null field is skipped. -/
theorem body_params_array_witness :
    1 < ([Json.obj [("key", Json.str "a")],
        Json.obj [("key", Json.str "b")]] : List Json).length ∧
    bodyParams (Json.arr [Json.obj [("key", Json.str "v"),
        ("skipme", Json.null)]]) = [("key", "v")] ∧
    bodyParams (Json.arr [Json.obj [("key", Json.str "a")],
        Json.obj [("key", Json.str "b")]]) =
      [("key[0]", "a"), ("key[1]", "b")] := by
  refine ⟨by decide, ?_, ?_⟩
  · have h1 := (body_params_array [("key", Json.str "v"), ("skipme", Json.null)]
      [Json.obj [("key", Json.str "a")], Json.obj [("key", Json.str "b")]]
      (by decide)).1
    rw [h1]
    decide
  · have h2 := (body_params_array [] [Json.obj [("key", Json.str "a")],
      Json.obj [("key", Json.str "b")]] (by decide)).2.1
    rw [h2]
    decide

/-- `backpack.rs` `calc_latency`: the per-symbol latency smoother. The
`HashMap<String, u64>` is embedded as a lookup function; the pair returned is
(the value `calc_latency` returns, the map after its `insert`). -/
def calc_latency (prev_latency : String → Option Nat) (symbol : String)
    (new_latency : Nat) : Nat × (String → Option Nat) :=
  let avg := (prev_latency symbol).getD new_latency
  let smooth := (avg * 3 + new_latency) / 4
  (smooth, fun s => if s = symbol then some smooth else prev_latency s)

/-- `u32::MAX` as a natural number. -/
def u32MAX : Nat := 4294967295

/-- `backpack_trading.rs` `place_order`, client id assignment:
`(timestamp % u32::MAX as u64) as u32`; the final `as u32` cast truncates
mod `2 ^ 32`. -/
def place_order_client_id (timestamp : Nat) : Nat :=
  (timestamp % u32MAX) % 2 ^ 32

/-- C5: the latency smoother returns the new sample unchanged when the symbol
has no previous entry, returns `(3 * previous + sample) / 4` in truncating
integer arithmetic when it has one, and stores the returned value as the
symbol's new smoothed latency. -/
theorem calc_latency_spec (prev : String → Option Nat) (symbol : String)
    (n : Nat) :
    (prev symbol = none → (calc_latency prev symbol n).1 = n) ∧
    (∀ p, prev symbol = some p →
      (calc_latency prev symbol n).1 = (3 * p + n) / 4) ∧
    (calc_latency prev symbol n).2 symbol =
      some (calc_latency prev symbol n).1 := by
  refine ⟨fun h => ?_, fun p hp => ?_, ?_⟩
  · simp only [calc_latency, h, Option.getD_none]
    omega
  · simp only [calc_latency, hp, Option.getD_some]
    ring_nf
  · simp [calc_latency]

/-- C5 witness: starting from the empty table, a first sample of 100 yields
100; a second sample of 500 on previous 100 yields 200. -/
theorem calc_latency_spec_witness :
    (calc_latency (fun _ => none) "BTC_USDC_PERP" 100).1 = 100 ∧
    (calc_latency (calc_latency (fun _ => none) "BTC_USDC_PERP" 100).2
      "BTC_USDC_PERP" 500).1 = 200 := by
  constructor
  · exact (calc_latency_spec (fun _ => none) "BTC_USDC_PERP" 100).1 rfl
  · have h := (calc_latency_spec
      (calc_latency (fun _ => none) "BTC_USDC_PERP" 100).2
      "BTC_USDC_PERP" 500).2.1 100 (by rfl)
    simpa using h

/-- C7 counterexample: at millisecond timestamp `2 ^ 32 - 1` the assigned
client id is `0`, not the low 32 bits of the timestamp (`2 ^ 32 - 1`). -/
theorem place_order_client_id_not_low_32_bits :
    ¬ place_order_client_id 4294967295 = 4294967295 % 2 ^ 32 := by
  decide

/-- C7 amended: for every millisecond timestamp `t`, the client id assigned by
`place_order` equals `t mod (2 ^ 32 - 1)` (`u32::MAX`), not `t mod 2 ^ 32`. -/
theorem place_order_client_id_eq_mod_u32MAX (t : Nat) :
    place_order_client_id t = t % (2 ^ 32 - 1) := by
  have h : place_order_client_id t = (t % 4294967295) % 4294967296 := by
    norm_num [place_order_client_id, u32MAX]
  rw [h]
  have h2 : (2 : Nat) ^ 32 - 1 = 4294967295 := by norm_num
  rw [h2]
  omega

/-- `BackpackOrderResponse`: the decoded REST order payload. -/
structure BackpackOrderResponse where
  id : String
  client_id : Option Nat
  symbol : String
  side : String
  order_type : String
  quantity : String
  price : Option String
  status : String
  executed_quantity : String
  executed_quote_quantity : String
  time_in_force : String
  created_at : Nat
  reduce_only : Option Bool
deriving DecidableEq, Repr

/-- Modelled from the spec: `crate::types::OrderInfo`, the canonical order
shape (fields as used by the provided sources); numeric fields are exact
rationals in place of `f64`. -/
structure OrderInfo where
  order_id : String
  client_order_id : Option String
  exchange : String
  symbol : String
  side : OrderSide
  order_type : OrderType
  size : ℚ
  price : Option ℚ
  filled_size : ℚ
  avg_price : Option ℚ
  status : OrderStatus
  created_time : Nat
  updated_time : Nat
deriving DecidableEq, Repr

/-- The `match side` shared by `get_order` and `convert_order_update_to_info`
(`"Bid"`/`"Ask"`, anything else `InvalidData`). -/
def decode_side (s : String) : Except ExchangeError OrderSide :=
  match s with
  | "Bid" => Except.ok OrderSide.Buy
  | "Ask" => Except.ok OrderSide.Sell
  | _ => Except.error (ExchangeError.InvalidData ("Invalid order side: " ++ s))

/-- `get_order`'s `match order_data.order_type` (strict REST path),
disambiguating `Limit` by time-in-force. -/
def rest_decode_order_type (t tif : String) :
    Except ExchangeError OrderType :=
  match t with
  | "Market" => Except.ok OrderType.Market
  | "Limit" =>
    if tif = "GTC" then Except.ok OrderType.Limit
    else if tif = "FOK" then Except.ok OrderType.FillOrKill
    else Except.ok OrderType.ImmediateOrCancel
  | _ => Except.error (ExchangeError.InvalidData ("Invalid order type: " ++ t))

/-- `get_order`'s `match order_data.status` (strict REST path). -/
def rest_decode_status (s : String) : Except ExchangeError OrderStatus :=
  match s with
  | "New" => Except.ok OrderStatus.Live
  | "PartiallyFilled" => Except.ok OrderStatus.PartiallyFilled
  | "Filled" => Except.ok OrderStatus.Filled
  | "Cancelled" => Except.ok OrderStatus.Canceled
  | "Pending" => Except.ok OrderStatus.Live
  | _ => Except.error (ExchangeError.InvalidData ("Invalid order status: " ++ s))

/-- `get_order`'s average-price computation from executed quantities. -/
def rest_avg_price (executed_quantity executed_quote_quantity : String) :
    Option ℚ :=
  if (parseRat executed_quantity).getD 0 > 0 then
    let executed_qty := (parseRat executed_quantity).getD 0
    let executed_quote := (parseRat executed_quote_quantity).getD 0
    if executed_qty > 0 ∧ executed_quote > 0 then
      some (executed_quote / executed_qty)
    else none
  else none

/-- `get_order` after a successful REST request: decode the response into the
canonical order shape, or fail. -/
def get_order_decode (order_data : BackpackOrderResponse) :
    Except ExchangeError (Option OrderInfo) :=
  match decode_side order_data.side with
  | Except.error e => Except.error e
  | Except.ok side =>
  match
    rest_decode_order_type order_data.order_type order_data.time_in_force with
  | Except.error e => Except.error e
  | Except.ok order_type =>
  match rest_decode_status order_data.status with
  | Except.error e => Except.error e
  | Except.ok status =>
  Except.ok (some {
    order_id := order_data.id
    client_order_id := order_data.client_id.map (fun id => toString id)
    exchange := "Backpack"
    symbol := convert_symbol_from_backpack order_data.symbol
    side := side
    order_type := order_type
    size := (parseRat order_data.quantity).getD 0
    price := order_data.price.bind parseRat
    filled_size := (parseRat order_data.executed_quantity).getD 0
    avg_price :=
      rest_avg_price order_data.executed_quantity
        order_data.executed_quote_quantity
    status := status
    created_time := order_data.created_at
    updated_time := order_data.created_at })

/-- `BackpackOrderUpdate`: the decoded WebSocket order-update payload. -/
structure BackpackOrderUpdate where
  order_id : String
  client_id : Option String
  symbol : String
  side : String
  order_type : String
  quantity : String
  price : Option String
  status : String
  executed_quantity : String
  executed_price : Option String
  timestamp : Nat
deriving DecidableEq, Repr

/-- `convert_order_update_to_info`'s `match update.order_type` (lenient
WebSocket path): unknown order types default to `Limit`. -/
def ws_decode_order_type (t : String) : OrderType :=
  match t with
  | "Market" => OrderType.Market
  | "Limit" => OrderType.Limit
  | _ => OrderType.Limit

/-- `convert_order_update_to_info`'s `match update.status` (lenient WebSocket
path): unknown statuses default to `Live`. -/
def ws_decode_status (s : String) : OrderStatus :=
  match s with
  | "New" => OrderStatus.Live
  | "PartiallyFilled" => OrderStatus.PartiallyFilled
  | "Filled" => OrderStatus.Filled
  | "Cancelled" => OrderStatus.Canceled
  | _ => OrderStatus.Live

/-- `convert_order_update_to_info`: decode a WebSocket order update; only an
unknown side fails. -/
def convert_order_update_to_info (update : BackpackOrderUpdate) :
    Except ExchangeError OrderInfo :=
  match decode_side update.side with
  | Except.error e => Except.error e
  | Except.ok side =>
  Except.ok {
    order_id := update.order_id
    client_order_id := update.client_id
    exchange := "Backpack"
    symbol := String.mk (rustReplace ['_'] ['/'] update.symbol.data)
    side := side
    order_type := ws_decode_order_type update.order_type
    size := (parseRat update.quantity).getD 0
    price := update.price.bind parseRat
    filled_size := (parseRat update.executed_quantity).getD 0
    avg_price := update.executed_price.bind parseRat
    status := ws_decode_status update.status
    created_time := update.timestamp
    updated_time := update.timestamp }

/-- C6: order-status decoding is asymmetric between the two paths: the strict
REST path maps exactly {New, PartiallyFilled, Filled, Cancelled, Pending} and
fails with `InvalidData` on any other status string, and on any order-type
string other than Market/Limit; the WebSocket decoder never fails on unknown
order type or status, defaulting them to `Limit` and `Live`. -/
theorem order_status_decoding_asymmetry (s t : String)
    (hs : s ∉ ["New", "PartiallyFilled", "Filled", "Cancelled", "Pending"])
    (ht : t ∉ ["Market", "Limit"]) :
    (rest_decode_status "New" = Except.ok OrderStatus.Live ∧
      rest_decode_status "PartiallyFilled" =
        Except.ok OrderStatus.PartiallyFilled ∧
      rest_decode_status "Filled" = Except.ok OrderStatus.Filled ∧
      rest_decode_status "Cancelled" = Except.ok OrderStatus.Canceled ∧
      rest_decode_status "Pending" = Except.ok OrderStatus.Live) ∧
    rest_decode_status s =
      Except.error
        (ExchangeError.InvalidData ("Invalid order status: " ++ s)) ∧
    (∀ tif, rest_decode_order_type t tif =
      Except.error
        (ExchangeError.InvalidData ("Invalid order type: " ++ t))) ∧
    ws_decode_order_type t = OrderType.Limit ∧
    ws_decode_status s = OrderStatus.Live := by
  refine ⟨⟨rfl, rfl, rfl, rfl, rfl⟩, ?_, ?_, ?_, ?_⟩
  · unfold rest_decode_status
    split <;> simp_all
  · intro tif
    unfold rest_decode_order_type
    split <;> simp_all
  · unfold ws_decode_order_type
    split <;> simp_all
  · unfold ws_decode_status
    split <;> simp_all

/-- C6 witness: the REST path rejects the unknown status `Expired` with
`InvalidData`, while the WebSocket path defaults the unknown order type
`StopLimit` to `Limit` and the unknown status `Expired` to `Live`. -/
theorem order_status_decoding_asymmetry_witness :
    rest_decode_status "Expired" =
      Except.error
        (ExchangeError.InvalidData ("Invalid order status: " ++ "Expired")) ∧
    ws_decode_order_type "StopLimit" = OrderType.Limit ∧
    ws_decode_status "Expired" = OrderStatus.Live :=
  ⟨(order_status_decoding_asymmetry "Expired" "StopLimit" (by decide)
      (by decide)).2.1,
    (order_status_decoding_asymmetry "Expired" "StopLimit" (by decide)
      (by decide)).2.2.2.1,
    (order_status_decoding_asymmetry "Expired" "StopLimit" (by decide)
      (by decide)).2.2.2.2⟩

/-- C10: although `get_order`'s result type allows `Ok(None)`, the decode
never produces it: whenever the decode succeeds the payload is
`Some(orderInfo)`; every other outcome is an error. -/
theorem get_order_never_ok_none (order_data : BackpackOrderResponse)
    (o : Option OrderInfo) (h : get_order_decode order_data = Except.ok o) :
    o.isSome = true := by
  revert h
  unfold get_order_decode
  cases decode_side order_data.side <;>
    cases rest_decode_order_type order_data.order_type
      order_data.time_in_force <;>
      cases rest_decode_status order_data.status <;> intro h <;>
        first
          | (injection h with h2
             rw [← h2]
             rfl)
          | injection h

/-- C10 witness: a fully valid order response decodes to `Ok(Some(...))`. -/
theorem get_order_never_ok_none_witness :
    get_order_decode ⟨"1", none, "BTC_USDC_PERP", "Bid", "Market", "1", none,
        "Filled", "1", "50000", "GTC", 5, none⟩ =
      Except.ok (some ⟨"1", none, "Backpack", "BTC/USDT", OrderSide.Buy,
        OrderType.Market, 1, none, 1, some (50000 / 1), OrderStatus.Filled, 5,
        5⟩) ∧
    (some (⟨"1", none, "Backpack", "BTC/USDT", OrderSide.Buy,
        OrderType.Market, 1, none, 1, some (50000 / 1), OrderStatus.Filled, 5,
        5⟩ : OrderInfo)).isSome = true :=
  ⟨by rfl,
    get_order_never_ok_none
      ⟨"1", none, "BTC_USDC_PERP", "Bid", "Market", "1", none, "Filled", "1",
        "50000", "GTC", 5, none⟩
      (some ⟨"1", none, "Backpack", "BTC/USDT", OrderSide.Buy,
        OrderType.Market, 1, none, 1, some (50000 / 1), OrderStatus.Filled, 5, 5⟩)
      (by rfl)⟩

/-- `BackpackPosition`: the decoded REST position payload. -/
structure BackpackPosition where
  symbol : String
  side : String
  size : String
  notional_value : String
  unrealized_pnl : String
  entry_price : String
  leverage : String
  liquidation_price : Option String
deriving DecidableEq, Repr

/-- Modelled from the spec: `crate::types::Position`, the canonical position
shape (fields as used by the provided sources); numeric fields are exact
rationals in place of `f64`. -/
structure Position where
  exchange : String
  symbol : String
  side : String
  size : ℚ
  avg_price : ℚ
  unrealized_pnl : ℚ
  margin : ℚ
  leverage : ℚ
  updated_time : Nat
deriving DecidableEq, Repr

/-- `get_positions` after a successful REST request: convert each raw
position, skipping the ones whose size parses to zero. `now` stands for the
`get_timestamp()` call. -/
def get_positions_decode (now : Nat) :
    List BackpackPosition → List Position
  | [] => []
  | pos_data :: rest =>
    if (parseRat pos_data.size).getD 0 = 0 then get_positions_decode now rest
    else
      { exchange := "Backpack"
        symbol := convert_symbol_from_backpack pos_data.symbol
        side := pos_data.side
        size := (parseRat pos_data.size).getD 0
        avg_price := (parseRat pos_data.entry_price).getD 0
        unrealized_pnl := (parseRat pos_data.unrealized_pnl).getD 0
        margin := 0
        leverage := (parseRat pos_data.leverage).getD 1
        updated_time := now } :: get_positions_decode now rest

/-- `BackpackPositionUpdate`: the decoded WebSocket position payload. -/
structure BackpackPositionUpdate where
  symbol : String
  side : String
  size : String
  unrealized_pnl : String
  entry_price : String
  leverage : String
  timestamp : Nat
deriving DecidableEq, Repr

/-- `convert_position_update`: convert a WebSocket position update with no
filtering of any kind. -/
def convert_position_update (update : BackpackPositionUpdate) : Position :=
  { exchange := "Backpack"
    symbol := String.mk (rustReplace ['_'] ['/'] update.symbol.data)
    side := update.side
    size := (parseRat update.size).getD 0
    avg_price := (parseRat update.entry_price).getD 0
    unrealized_pnl := (parseRat update.unrealized_pnl).getD 0
    margin := 0
    leverage := (parseRat update.leverage).getD 1
    updated_time := update.timestamp }

/-- `handle_ws_message`, position branch: for every decoded position update
it sends `vec![position]` to `position_tx`, unconditionally. -/
def ws_position_broadcast (update : BackpackPositionUpdate) : List Position :=
  [convert_position_update update]

/-- C9 counterexample: a WebSocket position update with size `"0"` is
published as a zero-size `Position` — the push path does not filter. -/
theorem ws_position_zero_size_published :
    convert_position_update
        ⟨"BTC_USDC_PERP", "Long", "0", "0", "50000", "10", 1715000000⟩ ∈
      ws_position_broadcast
        ⟨"BTC_USDC_PERP", "Long", "0", "0", "50000", "10", 1715000000⟩ ∧
    (convert_position_update
        ⟨"BTC_USDC_PERP", "Long", "0", "0", "50000", "10", 1715000000⟩).size =
      0 :=
  ⟨List.mem_cons_self _ _, by decide⟩

/-- C9 amended: the REST `get_positions` path filters zero-size positions —
every position it returns has nonzero size — while the WebSocket push path
publishes each decoded position update unfiltered, zero size included. -/
theorem get_positions_nonzero_size (resp : List BackpackPosition) (now : Nat) :
    (∀ p ∈ get_positions_decode now resp, p.size ≠ 0) ∧
    (∀ u : BackpackPositionUpdate,
      ws_position_broadcast u = [convert_position_update u]) := by
  refine ⟨?_, fun u => rfl⟩
  induction resp with
  | nil => intro p hp; simp [get_positions_decode] at hp
  | cons pos_data rest ih =>
    intro p hp
    by_cases hz : (parseRat pos_data.size).getD 0 = 0
    · rw [get_positions_decode, if_pos hz] at hp
      exact ih p hp
    · rw [get_positions_decode, if_neg hz] at hp
      rcases List.mem_cons.mp hp with hp | hp
      · rw [hp]
        exact hz
      · exact ih p hp

/-- C9 amended, witness: a one-element response of size `"1"` yields exactly
one position, whose size `1` is nonzero. -/
theorem get_positions_nonzero_size_witness :
    (⟨"Backpack", "BTC/USDT", "Long", 1, 50000, 0, 0, 10, 7⟩ : Position) ∈
      get_positions_decode 7
        [⟨"BTC_USDC_PERP", "Long", "1", "50000", "0", "50000", "10", none⟩] ∧
    (⟨"Backpack", "BTC/USDT", "Long", 1, 50000, 0, 0, 10, 7⟩ : Position).size ≠
      0 :=
  ⟨by decide,
    (get_positions_nonzero_size
      [⟨"BTC_USDC_PERP", "Long", "1", "50000", "0", "50000", "10", none⟩]
      7).1 _ (by decide)⟩

/-- `f64::round`: round half away from zero, exactly over the rationals. -/
def rustRound (x : ℚ) : ℤ :=
  if 0 ≤ x then ⌊x + 1 / 2⌋ else -⌊-x + 1 / 2⌋

/-- `validate_quantity` with the market's minimum quantity and step size
already parsed: clamp the input up to the minimum, round to the step grid,
and return the minimum when the rounded result undershoots it. -/
def validate_quantity (min_qty step_size quantity : ℚ) : ℚ :=
  let adjusted_qty := max quantity min_qty
  let steps := rustRound (adjusted_qty / step_size)
  let final_qty := (steps : ℚ) * step_size
  if final_qty < min_qty then min_qty else final_qty

/-- C4: `validate_quantity` first clamps the input up to the market minimum,
then rounds to the nearest step multiple as `round(qty/step)*step`, returning
the minimum when the rounded result falls below it; with minimum `0.001` and
step `0.001`, input `0.0014` yields `0.001` and input `0.0006` yields
`0.001`. -/
theorem validate_quantity_spec (min_qty step_size quantity : ℚ) :
    validate_quantity min_qty step_size quantity =
      (if (rustRound (max quantity min_qty / step_size) : ℚ) * step_size <
          min_qty then min_qty
        else (rustRound (max quantity min_qty / step_size) : ℚ) * step_size) ∧
    min_qty ≤ validate_quantity min_qty step_size quantity ∧
    (validate_quantity min_qty step_size quantity = min_qty ∨
      ∃ n : ℤ, validate_quantity min_qty step_size quantity = n * step_size) ∧
    validate_quantity (1 / 1000) (1 / 1000) (14 / 10000) = 1 / 1000 ∧
    validate_quantity (1 / 1000) (1 / 1000) (6 / 10000) = 1 / 1000 := by
  refine ⟨rfl, ?_, ?_, ?_, ?_⟩
  · unfold validate_quantity
    dsimp only
    split
    · exact le_refl min_qty
    · linarith [not_lt.mp (by assumption :
        ¬ (rustRound (max quantity min_qty / step_size) : ℚ) * step_size <
          min_qty)]
  · unfold validate_quantity
    dsimp only
    split
    · exact Or.inl rfl
    · exact Or.inr ⟨rustRound (max quantity min_qty / step_size), rfl⟩
  · norm_num [validate_quantity, rustRound]
  · norm_num [validate_quantity, rustRound]

end Backpack
